import Mathlib

/-
Verification of the training-loop controller in `train_x_formers.py`.

The file shallowly embeds the orchestration code of the repository:
  * the run-id resolver (lines 42-49),
  * the dataset / model-name configuration checks and the order in which
    resources are allocated (lines 31-37 and 61-176),
  * the outer epoch loop with its checkpoint and test decisions as an
    event trace (lines 152-275),
  * the per-phase accumulation loop over batches (lines 187-224 for
    train/val, 249-266 for test), and
  * the softmax / argmax prediction step (lines 212-213) over the reals.

External collaborators (the tensor runtime, model architectures, the
dataset pipeline and the metrics sink) are abstracted: model forward,
criterion, backward and the optimizer update are opaque functions bundled
in a `Runtime` record, and metric emissions are trace events.
-/

deriving instance DecidableEq for Except

namespace TrainXFormers

/-! ### Run Configuration Resolver (train_x_formers.py, lines 42-49)

`runs = sorted(glob.glob(os.path.join(save_dir_root, 'run', 'run_*')))`
`run_id = int(runs[-1].split('_')[-1])` (+ 1 when starting fresh)
`... if runs else 0`

Python's `sorted` on strings is lexicographic on code points; `split('_')`
splits on every underscore; `int` fails on a non-numeric string (modelled
with `Option`). -/

/-- Code-point comparison of two character lists, as Python compares
strings lexicographically. -/
def charListLt : List Char → List Char → Bool
  | [], [] => false
  | [], _ :: _ => true
  | _ :: _, [] => false
  | a :: as, b :: bs =>
      if a.toNat < b.toNat then true
      else if b.toNat < a.toNat then false
      else charListLt as bs

/-- Python string `<`. -/
def strLt (s t : String) : Bool := charListLt s.data t.data

/-- Insert a string into an ascending list, keeping it sorted. -/
def insertStr (s : String) : List String → List String
  | [] => [s]
  | t :: ts => if strLt t s then t :: insertStr s ts else s :: t :: ts

/-- Python `sorted` on a list of strings (insertion sort; the order is the
lexicographic one, which is all `runs[-1]` depends on). -/
def lexSort : List String → List String
  | [] => []
  | s :: ss => insertStr s (lexSort ss)

/-- Python `s.split('_')`: split a character list at every underscore. -/
def splitUnderscore : List Char → List (List Char)
  | [] => [[]]
  | c :: cs =>
      let r := splitUnderscore cs
      if c = '_' then [] :: r
      else
        match r with
        | [] => [[c]]
        | g :: gs => (c :: g) :: gs

/-- Python `int(s)` on a digit string: `none` models the `ValueError` on
an empty or non-numeric string. -/
def digitsToNat : List Char → Option Nat
  | cs =>
      if cs ≠ [] ∧ cs.all (fun c => c.isDigit) then
        some (cs.foldl (fun n c => n * 10 + (c.toNat - Char.toNat '0')) 0)
      else none

/-- `int(s.split('_')[-1])` of line 44/47. -/
def trailingInt (s : String) : Option Nat :=
  match (splitUnderscore s.data).getLast? with
  | none => none
  | some grp => digitsToNat grp

/-- Run-id resolution (lines 42-47): sort the `run_*` directory names,
take the trailing integer of the last one; reuse it when resuming, add one
when starting fresh; 0 when no run directory exists. -/
def runIdOf (resuming : Bool) (dirs : List String) : Option Nat :=
  match (lexSort dirs).getLast? with
  | none => some 0
  | some last => (trailingInt last).map (fun k => if resuming then k else k + 1)

/-! ### Configuration checks and resource allocation order
(lines 31-37 and 61-176) -/

/-- The `raise NotImplementedError` of lines 37 and 144. -/
inductive ConfigError
  | notImplemented
deriving DecidableEq

/-- Lines 31-37: the dataset-name check, run at module level before
`train_model` is ever entered. -/
def numClassesOf (dataset : String) : Except ConfigError Nat :=
  if dataset = "hmdb51" then .ok 51
  else if dataset = "ucf101" then .ok 101
  else .error .notImplemented

/-- The four architectures of the `if modelName == ...` chain
(lines 61-141). -/
def supportedModels : List String := [ "cct_3d", "simple_vit_3d", "vit_3d", "vivit" ]

/-- Resources allocated by `train_model` once both names are valid, in
program order (lines 66-141, 146, 148, 149, 171-176). -/
inductive Resource
  | model
  | criterion
  | optimizer
  | scheduler
  | trainLoader
  | valLoader
  | testLoader
deriving DecidableEq

/-- Configuration validation and allocation: the dataset check (module
level) precedes the model-name branch, whose `else` raises before the
criterion, optimizer, scheduler, and the three data loaders are built.
On error no `Resource` is allocated. -/
def setupResources (dataset modelName : String) : Except ConfigError (Nat × List Resource) :=
  match numClassesOf dataset with
  | .error e => .error e
  | .ok nc =>
      if modelName ∈ supportedModels then
        .ok (nc, [.model, .criterion, .optimizer, .scheduler,
                  .trainLoader, .valLoader, .testLoader])
      else .error .notImplemented

/-! ### Epoch Orchestrator trace (lines 152-275)

The outer loop `for epoch in range(resume_epoch, num_epochs)` is embedded
as the list of externally visible events it performs, in program order:
phase passes, `writer.add_scalar` emissions, the `torch.save` of lines
238-242, and the `torch.load` of line 155.  Model and optimizer snapshots
stored in a checkpoint are opaque external state and are not part of the
event; the event records the loop epoch, the file name and the integer
stored under the `'epoch'` key (which the code sets to `epoch + 1`). -/

/-- The run configuration: module-level constants of lines 21-29 and 50. -/
structure Config where
  modelName : String
  datasetName : String
  numEpochs : Nat
  resumeEpoch : Nat
  saveInterval : Nat
  testInterval : Nat
  useTest : Bool

/-- The three data splits. -/
inductive Split
  | train
  | val
  | test
deriving DecidableEq

/-- Observable orchestrator events.  `phaseRun s evalMode gradsDisabled e`
is one full Phase Runner pass over split `s` during epoch `e`;
`emitScalar tag e` is `writer.add_scalar(tag, _, e)`; `saveCk e file k`
is the `torch.save` at loop epoch `e` writing `file` with `'epoch': k`;
`loadCk e file` is the `torch.load` of the checkpoint of epoch `e`. -/
inductive Ev
  | phaseRun (split : Split) (evalMode : Bool) (gradsDisabled : Bool) (epoch : Nat)
  | emitScalar (tag : String) (epoch : Nat)
  | saveCk (epoch : Nat) (file : String) (storedEpoch : Nat)
  | loadCk (epoch : Nat) (file : String)
deriving DecidableEq

/-- Checkpoint file name (lines 51, 155, 242):
`saveName + '_epoch-' + str(epoch) + '.pth.tar'` with
`saveName = modelName + '-' + dataset`. -/
def ckFileName (cfg : Config) (epoch : Nat) : String :=
  cfg.modelName ++ "-" ++ cfg.datasetName ++ "_epoch-" ++ toString epoch ++ ".pth.tar"

/-- Train-then-validation passes of one epoch with their metric emissions
(lines 184-231): train pass in train mode with gradients on, then val pass
in eval mode under `torch.no_grad()`. -/
def trainvalBlock (e : Nat) : List Ev :=
  [.phaseRun .train false false e,
   .emitScalar "data/train_loss_epoch" e,
   .emitScalar "data/train_acc_epoch" e,
   .phaseRun .val true true e,
   .emitScalar "data/val_loss_epoch" e,
   .emitScalar "data/val_acc_epoch" e]

/-- Checkpoint decision (lines 237-242): saved only when
`epoch % save_epoch == save_epoch - 1`; the dict stores `'epoch': epoch + 1`. -/
def saveBlock (cfg : Config) (e : Nat) : List Ev :=
  if e % cfg.saveInterval = cfg.saveInterval - 1 then
    [.saveCk e (ckFileName cfg e) (e + 1)]
  else []

/-- Test decision (lines 245-269): eval-mode pass under `torch.no_grad()`
plus the two test metric emissions, when `useTest` and
`epoch % test_interval == test_interval - 1`. -/
def testBlock (cfg : Config) (e : Nat) : List Ev :=
  if cfg.useTest ∧ e % cfg.testInterval = cfg.testInterval - 1 then
    [.phaseRun .test true true e,
     .emitScalar "data/test_loss_epoch" e,
     .emitScalar "data/test_acc_epoch" e]
  else []

/-- All events of one iteration of the outer loop at epoch `e`. -/
def epochEvents (cfg : Config) (e : Nat) : List Ev :=
  trainvalBlock e ++ saveBlock cfg e ++ testBlock cfg e

/-- `for epoch in range(resume_epoch, num_epochs)` (line 182). -/
def loopTrace (cfg : Config) : List Ev :=
  (List.range' cfg.resumeEpoch (cfg.numEpochs - cfg.resumeEpoch)).flatMap (epochEvents cfg)

/-- Lines 152-160: when `resume_epoch != 0` the checkpoint of epoch
`resume_epoch - 1` is loaded before the loop; nothing is loaded otherwise. -/
def loadBlock (cfg : Config) : List Ev :=
  if cfg.resumeEpoch = 0 then []
  else [.loadCk (cfg.resumeEpoch - 1) (ckFileName cfg (cfg.resumeEpoch - 1))]

/-- The whole `train_model` event trace. -/
def trainTrace (cfg : Config) : List Ev :=
  loadBlock cfg ++ loopTrace cfg

/-- The epoch an event belongs to. -/
def evEpoch : Ev → Nat
  | .phaseRun _ _ _ e => e
  | .emitScalar _ e => e
  | .saveCk e _ _ => e
  | .loadCk e _ => e

/-- Checkpoint-write events. -/
def isSave : Ev → Bool
  | .saveCk _ _ _ => true
  | _ => false

/-- Checkpoint-load events. -/
def isLoad : Ev → Bool
  | .loadCk _ _ => true
  | _ => false

/-- Checkpoint writes performed at loop epoch `e`. -/
def isSaveAt (e : Nat) (ev : Ev) : Bool :=
  isSave ev && (evEpoch ev == e)

/-- Test-phase passes and test metric emissions. -/
def isTestEv : Ev → Bool
  | .phaseRun Split.test _ _ _ => true
  | .phaseRun Split.train _ _ _ => false
  | .phaseRun Split.val _ _ _ => false
  | .emitScalar tag _ => tag == "data/test_loss_epoch" || tag == "data/test_acc_epoch"
  | _ => false

/-- Test-phase events of epoch `e`. -/
def isTestAt (e : Nat) (ev : Ev) : Bool :=
  isTestEv ev && (evEpoch ev == e)

/-- The epoch of a train-phase pass, `none` for any other event. -/
def trainEpochOf : Ev → Option Nat
  | .phaseRun s _ _ e => match s with
      | .train => some e
      | _ => none
  | _ => none

/-- Epochs the outer loop actually runs a train pass for, in order. -/
def phaseEpochs (tr : List Ev) : List Nat :=
  tr.filterMap trainEpochOf

/-- Whether every checkpoint written along a trace stores the loop epoch
itself under its `'epoch'` key (the claim's reading of "the current
epoch"). -/
def contentsAreCurrentEpoch (tr : List Ev) : Bool :=
  tr.all fun ev =>
    match ev with
    | .saveCk e _ k => k == e
    | _ => true

/-! ### Phase Runner (lines 187-224 train/val, 249-266 test)

The inner loop over batches.  The tensor runtime is abstracted by a
`Runtime` record: `forward` is the model applied to a batch of input rows,
`softmax` the row transform of `nn.Softmax(dim=1)`, `criterionLoss` the
scalar `loss.item()` of the criterion, `gradOf` the gradient produced by
`loss.backward()`, and `optUpdate` the parameter update of
`optimizer.step()`.  Scalars are ℚ (exact stand-in for float arithmetic;
none of the verified properties depend on rounding). -/

/-- One `(inputs, labels)` pair yielded by a data loader.  `inputs` is a
list of per-example rows, so `inputs.length` is `inputs.size(0)`. -/
structure BatchData where
  inputs : List (List ℚ)
  labels : List Nat

/-- Abstracted tensor runtime. -/
structure Runtime where
  forward : List ℚ → List (List ℚ) → List (List ℚ)
  softmax : List ℚ → List ℚ
  criterionLoss : List (List ℚ) → List Nat → ℚ
  gradOf : List ℚ → BatchData → List ℚ
  optUpdate : List ℚ → List ℚ → List ℚ

/-- Mutable state of the inner loop: model parameters, gradients, and the
two accumulators reset at the top of each phase (lines 188-189). -/
structure LoopState where
  params : List ℚ
  grads : List ℚ
  runningLoss : ℚ
  runningCorrects : Nat

/-- `torch.max(probs, 1)[1]` (line 213): index of the first maximal entry,
scanning left to right. -/
def argmaxFrom {α : Type*} [LinearOrder α] (bi : Nat) (bv : α) (i : Nat) : List α → Nat
  | [] => bi
  | x :: xs => if bv < x then argmaxFrom i x (i + 1) xs else argmaxFrom bi bv (i + 1) xs

/-- Index of the first maximum of a row (0 on an empty row, which torch
would reject earlier). -/
def argmaxIdx {α : Type*} [LinearOrder α] : List α → Nat
  | [] => 0
  | x :: xs => argmaxFrom 0 x 1 xs

/-- Lines 212-213: per-example predicted class, the argmax of the
softmaxed output row. -/
def predsOf (R : Runtime) (params : List ℚ) (b : BatchData) : List Nat :=
  ((R.forward params b.inputs).map R.softmax).map argmaxIdx

/-- `loss.item()` for a batch at given parameters (line 214). -/
def batchLossVal (R : Runtime) (params : List ℚ) (b : BatchData) : ℚ :=
  R.criterionLoss (R.forward params b.inputs) b.labels

/-- `torch.sum(preds == labels.data)` (line 221). -/
def batchCorrects (R : Runtime) (params : List ℚ) (b : BatchData) : Nat :=
  ((predsOf R params b).zip b.labels).countP fun pl => pl.1 == pl.2

/-- One iteration of the batch loop (lines 200-221 / 252-263).
`training` selects the `phase == 'train'` branches (backward + optimizer
step); `zeroGradEach` is the `optimizer.zero_grad()` of line 204, present
in the train/val loop but absent from the test loop. -/
def batchStep (R : Runtime) (training zeroGradEach : Bool) (st : LoopState) (b : BatchData) : LoopState :=
  let st0 := if zeroGradEach then { st with grads := List.replicate st.grads.length 0 } else st
  let lossVal := batchLossVal R st0.params b
  let corr := batchCorrects R st0.params b
  let st1 :=
    if training then
      let g := R.gradOf st0.params b
      { st0 with grads := g, params := R.optUpdate st0.params g }
    else st0
  { st1 with
    runningLoss := st1.runningLoss + lossVal * (b.inputs.length : ℚ),
    runningCorrects := st1.runningCorrects + corr }

/-- One full phase pass: reset the accumulators to zero (lines 188-189 /
249-250), then fold the batch loop over the data source. -/
def runPhase (R : Runtime) (training zeroGradEach : Bool) (params grads : List ℚ)
    (bs : List BatchData) : LoopState :=
  bs.foldl (batchStep R training zeroGradEach) ⟨params, grads, 0, 0⟩

/-- `len(dataloader.dataset)` (lines 179-180): each example of the source
appears in exactly one batch, so the dataset size is the sum of the batch
sizes. -/
def datasetSize (bs : List BatchData) : Nat :=
  (bs.map fun b => b.inputs.length).sum

/-- Errors a phase pass could end in.  `divisionByZero` is Python's
`ZeroDivisionError`; `emptyDataset` is the dedicated error the spec
discusses — the code has no such raise, the constructor exists so the
spec's alternative is expressible. -/
inductive PhaseError
  | divisionByZero
  | emptyDataset
deriving DecidableEq

/-- Lines 223-224 / 265-266: the emitted (average loss, accuracy) pair.
Python raises `ZeroDivisionError` when the dataset size is 0, modelled by
the `Except`. -/
def epochMetrics (R : Runtime) (training zeroGradEach : Bool) (params grads : List ℚ)
    (bs : List BatchData) : Except PhaseError (ℚ × ℚ) :=
  let st := runPhase R training zeroGradEach params grads bs
  if datasetSize bs = 0 then .error .divisionByZero
  else .ok (st.runningLoss / (datasetSize bs : ℚ),
            (st.runningCorrects : ℚ) / (datasetSize bs : ℚ))

/-- Modelled from the spec: the running loss the spec describes — the sum,
over the batches in order, of `loss.item() * batch_size`, each loss taken
at the parameter state in effect when that batch is processed. -/
def specRunningLoss (R : Runtime) (training zeroGradEach : Bool) : LoopState → List BatchData → ℚ
  | _, [] => 0
  | st, b :: rest =>
      batchLossVal R st.params b * (b.inputs.length : ℚ)
        + specRunningLoss R training zeroGradEach (batchStep R training zeroGradEach st b) rest

/-- Modelled from the spec: the running correct-count the spec describes —
the sum over batches of the number of examples with `prediction == label`. -/
def specRunningCorrects (R : Runtime) (training zeroGradEach : Bool) : LoopState → List BatchData → Nat
  | _, [] => 0
  | st, b :: rest =>
      batchCorrects R st.params b
        + specRunningCorrects R training zeroGradEach (batchStep R training zeroGradEach st b) rest

/-! ### Softmax over the reals (lines 212-213) -/

/-- `nn.Softmax(dim=1)` applied to one output row, over ℝ. -/
noncomputable def softmaxRow (l : List ℝ) : List ℝ :=
  l.map fun v => Real.exp v / (l.map Real.exp).sum

/-! ### Concrete instances used by witnesses and counterexamples -/

/-- A concrete runtime: the identity network with constant loss 1. -/
def R0 : Runtime where
  forward := fun _ rows => rows
  softmax := fun r => r
  criterionLoss := fun _ _ => 1
  gradOf := fun _ _ => []
  optUpdate := fun p _ => p

/-- A one-batch, one-example data source whose prediction is correct. -/
def bs1 : List BatchData := [ { inputs := [[1]], labels := [0] } ]

/-- Configuration with `save_interval = 2` over two epochs: epoch 1 writes
the single checkpoint. -/
def cfgEx : Config :=
  { modelName := "simple_vit_3d", datasetName := "ucf101",
    numEpochs := 2, resumeEpoch := 0, saveInterval := 2,
    testInterval := 20, useTest := false }

/-- The end-to-end scenario of spec section 8: three epochs,
`save_interval = 2`, `test_interval = 3`, test evaluation on. -/
def cfgT : Config :=
  { modelName := "simple_vit_3d", datasetName := "ucf101",
    numEpochs := 3, resumeEpoch := 0, saveInterval := 2,
    testInterval := 3, useTest := true }

/-! ### Helper lemmas: locating events by epoch -/

/-- Every event of a train/val block carries that block's epoch. -/
lemma mem_trainvalBlock_epoch {ev : Ev} {e : Nat} (h : ev ∈ trainvalBlock e) :
    evEpoch ev = e := by
  simp only [trainvalBlock, List.mem_cons, List.not_mem_nil, or_false] at h
  rcases h with rfl | rfl | rfl | rfl | rfl | rfl <;> rfl

/-- Every event of a save block carries that block's epoch. -/
lemma mem_saveBlock_epoch {cfg : Config} {ev : Ev} {e : Nat} (h : ev ∈ saveBlock cfg e) :
    evEpoch ev = e := by
  unfold saveBlock at h
  split at h
  · simp only [List.mem_cons, List.not_mem_nil, or_false] at h
    subst h; rfl
  · simp at h

/-- Every event of a test block carries that block's epoch. -/
lemma mem_testBlock_epoch {cfg : Config} {ev : Ev} {e : Nat} (h : ev ∈ testBlock cfg e) :
    evEpoch ev = e := by
  unfold testBlock at h
  split at h
  · simp only [List.mem_cons, List.not_mem_nil, or_false] at h
    rcases h with rfl | rfl | rfl <;> rfl
  · simp at h

/-- Every event produced during the loop iteration of epoch `e` carries `e`. -/
lemma mem_epochEvents_epoch {cfg : Config} {ev : Ev} {e : Nat} (h : ev ∈ epochEvents cfg e) :
    evEpoch ev = e := by
  unfold epochEvents at h
  rcases List.mem_append.1 h with h' | h'
  · rcases List.mem_append.1 h' with h'' | h''
    · exact mem_trainvalBlock_epoch h''
    · exact mem_saveBlock_epoch h''
  · exact mem_testBlock_epoch h'

/-- No train/val block event is a load. -/
lemma mem_trainvalBlock_not_load {ev : Ev} {e : Nat} (h : ev ∈ trainvalBlock e) :
    isLoad ev = false := by
  simp only [trainvalBlock, List.mem_cons, List.not_mem_nil, or_false] at h
  rcases h with rfl | rfl | rfl | rfl | rfl | rfl <;> rfl

/-- No save block event is a load. -/
lemma mem_saveBlock_not_load {cfg : Config} {ev : Ev} {e : Nat} (h : ev ∈ saveBlock cfg e) :
    isLoad ev = false := by
  unfold saveBlock at h
  split at h
  · simp only [List.mem_cons, List.not_mem_nil, or_false] at h
    subst h; rfl
  · simp at h

/-- No test block event is a load. -/
lemma mem_testBlock_not_load {cfg : Config} {ev : Ev} {e : Nat} (h : ev ∈ testBlock cfg e) :
    isLoad ev = false := by
  unfold testBlock at h
  split at h
  · simp only [List.mem_cons, List.not_mem_nil, or_false] at h
    rcases h with rfl | rfl | rfl <;> rfl
  · simp at h

/-- No loop iteration ever loads a checkpoint. -/
lemma mem_epochEvents_not_load {cfg : Config} {ev : Ev} {e : Nat} (h : ev ∈ epochEvents cfg e) :
    isLoad ev = false := by
  unfold epochEvents at h
  rcases List.mem_append.1 h with h' | h'
  · rcases List.mem_append.1 h' with h'' | h''
    · exact mem_trainvalBlock_not_load h''
    · exact mem_saveBlock_not_load h''
  · exact mem_testBlock_not_load h'

/-- A filter that only accepts epoch-`e` events vanishes on the events of
any other epoch. -/
lemma filter_epochEvents_of_ne (cfg : Config) (p : Ev → Bool) (e : Nat)
    (hp : ∀ ev, p ev = true → evEpoch ev = e) {e' : Nat} (h : e' ≠ e) :
    (epochEvents cfg e').filter p = [] := by
  rw [List.filter_eq_nil_iff]
  intro ev hev hpe
  exact h ((mem_epochEvents_epoch hev).symm.trans (hp ev hpe))

/-- Filtering events of a single epoch `e` out of the whole loop range. -/
lemma filter_flatMap_range' {α : Type*} (g : Nat → List α) (p : α → Bool) (e : Nat)
    (h : ∀ e', e' ≠ e → (g e').filter p = []) :
    ∀ (n a : Nat), (((List.range' a n).flatMap g).filter p)
      = if a ≤ e ∧ e < a + n then (g e).filter p else [] := by
  intro n
  induction n with
  | zero =>
    intro a
    have h0 : ¬(a ≤ e ∧ e < a + 0) := by omega
    rw [if_neg h0]
    rfl
  | succ n ih =>
    intro a
    rw [List.range'_succ, List.flatMap_cons, List.filter_append, ih (a + 1)]
    by_cases hae : a = e
    · subst hae
      have hp : a ≤ a ∧ a < a + (n + 1) := by omega
      have hn : ¬(a + 1 ≤ a ∧ a < a + 1 + n) := by omega
      rw [if_pos hp, if_neg hn, List.append_nil]
    · rw [h a hae, List.nil_append]
      have hiff : (a + 1 ≤ e ∧ e < a + 1 + n) ↔ (a ≤ e ∧ e < a + (n + 1)) := by omega
      rw [if_congr hiff rfl rfl]

/-- A filter rejecting load events vanishes on the load block. -/
lemma filter_loadBlock (cfg : Config) (p : Ev → Bool)
    (hl : ∀ k f, p (.loadCk k f) = false) :
    (loadBlock cfg).filter p = [] := by
  unfold loadBlock
  split <;> simp [hl]

/-- Filtering the whole `train_model` trace for epoch-`e` events reduces to
filtering the events of the single loop iteration at `e`. -/
lemma filter_trainTrace (cfg : Config) (p : Ev → Bool) (e : Nat)
    (hp : ∀ ev, p ev = true → evEpoch ev = e)
    (hl : ∀ k f, p (.loadCk k f) = false)
    (h1 : cfg.resumeEpoch ≤ e) (h2 : e < cfg.numEpochs) :
    (trainTrace cfg).filter p = (epochEvents cfg e).filter p := by
  unfold trainTrace loopTrace
  rw [List.filter_append, filter_loadBlock cfg p hl, List.nil_append,
      filter_flatMap_range' (epochEvents cfg) p e
        (fun e' h' => filter_epochEvents_of_ne cfg p e hp h') _ _,
      if_pos (by omega)]

/-- A successful `isSaveAt e` test pins the event's epoch to `e`. -/
lemma isSaveAt_epoch {e : Nat} {ev : Ev} (h : isSaveAt e ev = true) : evEpoch ev = e := by
  unfold isSaveAt at h
  rw [Bool.and_eq_true] at h
  exact eq_of_beq h.2

/-- A successful `isTestAt e` test pins the event's epoch to `e`. -/
lemma isTestAt_epoch {e : Nat} {ev : Ev} (h : isTestAt e ev = true) : evEpoch ev = e := by
  unfold isTestAt at h
  rw [Bool.and_eq_true] at h
  exact eq_of_beq h.2

/-- Within its own epoch, the save filter keeps exactly the save block. -/
lemma filter_isSaveAt_epochEvents (cfg : Config) (e : Nat) :
    (epochEvents cfg e).filter (isSaveAt e) = saveBlock cfg e := by
  unfold epochEvents trainvalBlock saveBlock testBlock
  split_ifs <;> simp [isSaveAt, isSave, evEpoch]

/-- Within its own epoch, the test filter keeps exactly the test block. -/
lemma filter_isTestAt_epochEvents (cfg : Config) (e : Nat) :
    (epochEvents cfg e).filter (isTestAt e) = testBlock cfg e := by
  unfold epochEvents trainvalBlock saveBlock testBlock
  split_ifs <;> simp [isTestAt, isTestEv, evEpoch]

/-- Each loop iteration contributes exactly one train-phase pass, at its
own epoch. -/
lemma filterMap_trainEpochOf_epochEvents (cfg : Config) (e : Nat) :
    (epochEvents cfg e).filterMap trainEpochOf = [e] := by
  unfold epochEvents trainvalBlock saveBlock testBlock
  split_ifs <;> rfl

/-- The load block contributes no train-phase pass. -/
lemma filterMap_trainEpochOf_loadBlock (cfg : Config) :
    (loadBlock cfg).filterMap trainEpochOf = [] := by
  unfold loadBlock
  split <;> rfl

/-- The train-phase epochs of the loop over `range' a n` are `range' a n`. -/
lemma filterMap_trainEpochOf_range' (cfg : Config) :
    ∀ (n a : Nat),
      ((List.range' a n).flatMap (epochEvents cfg)).filterMap trainEpochOf
        = List.range' a n := by
  intro n
  induction n with
  | zero => intro a; rfl
  | succ n ih =>
    intro a
    rw [List.range'_succ, List.flatMap_cons, List.filterMap_append,
        filterMap_trainEpochOf_epochEvents, ih (a + 1)]
    rfl

/-- The loop trace never begins with a load event. -/
lemma takeWhile_isLoad_loopTrace (cfg : Config) :
    (loopTrace cfg).takeWhile isLoad = [] := by
  unfold loopTrace
  cases h : cfg.numEpochs - cfg.resumeEpoch with
  | zero => rfl
  | succ m => rw [List.range'_succ]; rfl

/-- No load event occurs inside the loop trace. -/
lemma filter_isLoad_loopTrace (cfg : Config) :
    (loopTrace cfg).filter isLoad = [] := by
  rw [List.filter_eq_nil_iff]
  intro ev hev
  unfold loopTrace at hev
  obtain ⟨e', _, hmem⟩ := List.mem_flatMap.1 hev
  simp [mem_epochEvents_not_load hmem]

/-! ### Helper lemmas: phase-runner accumulation -/

/-- An evaluation-only batch step leaves the parameters untouched. -/
lemma batchStep_eval_params (R : Runtime) (zg : Bool) (st : LoopState) (b : BatchData) :
    (batchStep R false zg st b).params = st.params := by
  cases zg <;> rfl

/-- Folding evaluation-only batch steps leaves the parameters untouched. -/
lemma foldl_batchStep_params_eval (R : Runtime) (zg : Bool) :
    ∀ (bs : List BatchData) (st : LoopState),
      (bs.foldl (batchStep R false zg) st).params = st.params := by
  intro bs
  induction bs with
  | nil => intro st; rfl
  | cons b rest ih => intro st; rw [List.foldl_cons, ih, batchStep_eval_params]

/-- One batch step adds `loss.item() * batch_size` to the running loss. -/
lemma batchStep_runningLoss (R : Runtime) (t zg : Bool) (st : LoopState) (b : BatchData) :
    (batchStep R t zg st b).runningLoss
      = st.runningLoss + batchLossVal R st.params b * (b.inputs.length : ℚ) := by
  cases t <;> cases zg <;> rfl

/-- One batch step adds the batch's correct count to the running corrects. -/
lemma batchStep_runningCorrects (R : Runtime) (t zg : Bool) (st : LoopState) (b : BatchData) :
    (batchStep R t zg st b).runningCorrects
      = st.runningCorrects + batchCorrects R st.params b := by
  cases t <;> cases zg <;> rfl

/-- The folded running loss is the initial value plus the per-batch sum. -/
lemma foldl_batchStep_runningLoss (R : Runtime) (t zg : Bool) :
    ∀ (bs : List BatchData) (st : LoopState),
      (bs.foldl (batchStep R t zg) st).runningLoss
        = st.runningLoss + specRunningLoss R t zg st bs := by
  intro bs
  induction bs with
  | nil => intro st; simp [specRunningLoss]
  | cons b rest ih =>
    intro st
    rw [List.foldl_cons, ih (batchStep R t zg st b), batchStep_runningLoss]
    simp only [specRunningLoss]
    ring

/-- The folded correct count is the initial value plus the per-batch sum. -/
lemma foldl_batchStep_runningCorrects (R : Runtime) (t zg : Bool) :
    ∀ (bs : List BatchData) (st : LoopState),
      (bs.foldl (batchStep R t zg) st).runningCorrects
        = st.runningCorrects + specRunningCorrects R t zg st bs := by
  intro bs
  induction bs with
  | nil => intro st; simp [specRunningCorrects]
  | cons b rest ih =>
    intro st
    rw [List.foldl_cons, ih (batchStep R t zg st b), batchStep_runningCorrects]
    simp only [specRunningCorrects]
    omega

/-- With a non-negative criterion every accumulated loss is non-negative. -/
lemma specRunningLoss_nonneg (R : Runtime) (t zg : Bool)
    (hL : ∀ o l, 0 ≤ R.criterionLoss o l) :
    ∀ (bs : List BatchData) (st : LoopState), 0 ≤ specRunningLoss R t zg st bs := by
  intro bs
  induction bs with
  | nil => intro st; simp [specRunningLoss]
  | cons b rest ih =>
    intro st
    simp only [specRunningLoss]
    exact add_nonneg (mul_nonneg (hL _ _) (Nat.cast_nonneg _)) (ih _)

/-- A batch contributes at most its batch size to the correct count. -/
lemma batchCorrects_le (R : Runtime) (params : List ℚ) (b : BatchData)
    (hb : b.labels.length = b.inputs.length) :
    batchCorrects R params b ≤ b.inputs.length := by
  unfold batchCorrects
  have h1 := List.countP_le_length (fun pl => pl.1 == pl.2)
    (l := (predsOf R params b).zip b.labels)
  have h2 : ((predsOf R params b).zip b.labels).length ≤ b.labels.length := by
    rw [List.length_zip]
    exact min_le_right _ _
  omega

/-- The accumulated correct count never exceeds the dataset size. -/
lemma specRunningCorrects_le (R : Runtime) (t zg : Bool) :
    ∀ (bs : List BatchData), (∀ b ∈ bs, b.labels.length = b.inputs.length) →
      ∀ st : LoopState, specRunningCorrects R t zg st bs ≤ datasetSize bs := by
  intro bs
  induction bs with
  | nil => intro _ st; simp [specRunningCorrects, datasetSize]
  | cons b rest ih =>
    intro hb st
    simp only [specRunningCorrects, datasetSize, List.map_cons, List.sum_cons]
    have h1 := batchCorrects_le R st.params b (hb b (by simp))
    have h2 := ih (fun b' hb' => hb b' (by simp [hb'])) (batchStep R t zg st b)
    simp only [datasetSize] at h2
    omega

/-! ### Helper lemmas: argmax under a strictly monotone map -/

/-- `argmaxFrom` only compares elements, so a strictly monotone map of the
values leaves the chosen index unchanged. -/
lemma argmaxFrom_map {α β : Type*} [LinearOrder α] [LinearOrder β] {f : α → β}
    (hf : StrictMono f) :
    ∀ (l : List α) (bi i : Nat) (bv : α),
      argmaxFrom bi (f bv) i (l.map f) = argmaxFrom bi bv i l := by
  intro l
  induction l with
  | nil => intro bi i bv; rfl
  | cons x xs ih =>
    intro bi i bv
    simp only [List.map_cons, argmaxFrom, hf.lt_iff_lt]
    split_ifs with h <;> exact ih _ _ _

/-- The first-maximum index is invariant under a strictly monotone map. -/
lemma argmaxIdx_map {α β : Type*} [LinearOrder α] [LinearOrder β] {f : α → β}
    (hf : StrictMono f) :
    ∀ l : List α, argmaxIdx (l.map f) = argmaxIdx l
  | [] => rfl
  | x :: xs => by
      simp only [List.map_cons, argmaxIdx]
      exact argmaxFrom_map hf xs 0 1 x

/-! ### Claim theorems -/

/-- Claim C3 (confirmed): the Run Configuration Resolver, given directories
`run_1, run_2, run_5`, resolves a resume to 5 and a fresh start to 6; given
no run directories, both resolve to 0. -/
theorem run_id_resolution_cases :
    runIdOf true [ "run_1", "run_2", "run_5" ] = some 5 ∧
    runIdOf false [ "run_1", "run_2", "run_5" ] = some 6 ∧
    runIdOf true [] = some 0 ∧
    runIdOf false [] = some 0 := by
  refine ⟨by decide, by decide, rfl, rfl⟩

/-- Claim C8 (confirmed): an unknown dataset name or unknown model name
makes setup fail with `NotImplementedError` before any model, criterion,
optimizer, scheduler, or data loader is allocated — the result carries no
`Resource` at all. -/
theorem invalid_config_no_allocation (dataset modelName : String)
    (h : dataset ∉ [ "hmdb51", "ucf101" ] ∨ modelName ∉ supportedModels) :
    setupResources dataset modelName = .error ConfigError.notImplemented := by
  rcases h with h | h
  · simp only [List.mem_cons, List.not_mem_nil, or_false, not_or] at h
    unfold setupResources numClassesOf
    rw [if_neg h.1, if_neg h.2]
  · rcases hnc : numClassesOf dataset with e | nc
    · cases e
      simp only [setupResources, hnc]
    · simp only [setupResources, hnc, if_neg h]

/-- Witness for `invalid_config_no_allocation` at the unknown dataset
`kinetics` and unknown model `c3d`. -/
theorem invalid_config_no_allocation_witness :
    ( "kinetics" ∉ [ "hmdb51", "ucf101" ] ∨ "c3d" ∉ supportedModels) ∧
    setupResources "kinetics" "c3d" = .error ConfigError.notImplemented :=
  ⟨Or.inl (by decide), invalid_config_no_allocation "kinetics" "c3d" (Or.inl (by decide))⟩

/-- Claim C1 (amended): for every epoch `e` of the loop range, the trace
contains exactly one checkpoint write at `e` when
`e % save_interval = save_interval - 1` — its file name built from the
model name, dataset name and `e`, its stored `'epoch'` field being `e + 1`
(not `e`, see the counterexample) — and no checkpoint write otherwise. -/
theorem checkpoint_save_characterization (cfg : Config) (e : Nat)
    (h1 : cfg.resumeEpoch ≤ e) (h2 : e < cfg.numEpochs) :
    (trainTrace cfg).filter (isSaveAt e) =
      if e % cfg.saveInterval = cfg.saveInterval - 1 then
        [Ev.saveCk e (ckFileName cfg e) (e + 1)]
      else [] := by
  rw [filter_trainTrace cfg (isSaveAt e) e (fun ev h => isSaveAt_epoch h)
        (fun k f => rfl) h1 h2,
      filter_isSaveAt_epochEvents]
  rfl

/-- Witness for `checkpoint_save_characterization`: epoch 1 of a run with
`save_interval = 2` over two epochs. -/
theorem checkpoint_save_characterization_witness :
    (cfgEx.resumeEpoch ≤ 1 ∧ 1 < cfgEx.numEpochs) ∧
    (trainTrace cfgEx).filter (isSaveAt 1) =
      (if 1 % cfgEx.saveInterval = cfgEx.saveInterval - 1 then
        [Ev.saveCk 1 (ckFileName cfgEx 1) (1 + 1)]
      else []) :=
  ⟨by decide, checkpoint_save_characterization cfgEx 1 (by decide) (by decide)⟩

/-- Counterexample to claim C1 as stated: in the two-epoch run `cfgEx` the
only checkpoint written is the one of loop epoch 1, and its stored
`'epoch'` field is 2, not the current epoch — the code saves
`'epoch': epoch + 1` (line 239). -/
theorem checkpoint_contents_counterexample :
    (trainTrace cfgEx).filter (isSaveAt 1)
        = [Ev.saveCk 1 "simple_vit_3d-ucf101_epoch-1.pth.tar" 2] ∧
    contentsAreCurrentEpoch (trainTrace cfgEx) = false := by
  exact ⟨by decide, by decide⟩

/-- Claim C2 (confirmed): for every epoch `e` of the loop range, the trace
contains exactly one test-phase pass (eval mode, gradients disabled) and
exactly one pair of test loss/accuracy emissions at step `e` when test
evaluation is enabled and `e % test_interval = test_interval - 1`, and no
test-phase event otherwise. -/
theorem test_phase_emission_characterization (cfg : Config) (e : Nat)
    (h1 : cfg.resumeEpoch ≤ e) (h2 : e < cfg.numEpochs) :
    (trainTrace cfg).filter (isTestAt e) =
      if cfg.useTest ∧ e % cfg.testInterval = cfg.testInterval - 1 then
        [Ev.phaseRun Split.test true true e,
         Ev.emitScalar "data/test_loss_epoch" e,
         Ev.emitScalar "data/test_acc_epoch" e]
      else [] := by
  rw [filter_trainTrace cfg (isTestAt e) e (fun ev h => isTestAt_epoch h)
        (fun k f => rfl) h1 h2,
      filter_isTestAt_epochEvents]
  rfl

/-- Witness for `test_phase_emission_characterization`: epoch 2 of the
three-epoch run with `test_interval = 3` and test evaluation enabled. -/
theorem test_phase_emission_characterization_witness :
    (cfgT.resumeEpoch ≤ 2 ∧ 2 < cfgT.numEpochs) ∧
    (trainTrace cfgT).filter (isTestAt 2) =
      (if cfgT.useTest ∧ 2 % cfgT.testInterval = cfgT.testInterval - 1 then
        [Ev.phaseRun Split.test true true 2,
         Ev.emitScalar "data/test_loss_epoch" 2,
         Ev.emitScalar "data/test_acc_epoch" 2]
      else []) :=
  ⟨by decide, test_phase_emission_characterization cfgT 2 (by decide) (by decide)⟩

/-- Claim C4 (confirmed): the outer loop runs a train pass for exactly the
epochs `resume_epoch, ..., num_epochs - 1` in order; the checkpoint loads
of the trace are exactly one load of epoch `resume_epoch - 1` when
`resume_epoch ≠ 0` and none when `resume_epoch = 0`; and every load
precedes everything else in the trace (it is the trace's load prefix). -/
theorem training_loop_range_and_resume (cfg : Config) :
    phaseEpochs (trainTrace cfg)
        = List.range' cfg.resumeEpoch (cfg.numEpochs - cfg.resumeEpoch) ∧
    (trainTrace cfg).filter isLoad =
      (if cfg.resumeEpoch = 0 then []
       else [Ev.loadCk (cfg.resumeEpoch - 1) (ckFileName cfg (cfg.resumeEpoch - 1))]) ∧
    (trainTrace cfg).takeWhile isLoad =
      (if cfg.resumeEpoch = 0 then []
       else [Ev.loadCk (cfg.resumeEpoch - 1) (ckFileName cfg (cfg.resumeEpoch - 1))]) := by
  refine ⟨?_, ?_, ?_⟩
  · unfold phaseEpochs trainTrace
    rw [List.filterMap_append, filterMap_trainEpochOf_loadBlock, List.nil_append]
    exact filterMap_trainEpochOf_range' cfg _ _
  · unfold trainTrace
    rw [List.filter_append, filter_isLoad_loopTrace, List.append_nil]
    unfold loadBlock
    split <;> simp [isLoad]
  · unfold trainTrace loadBlock
    split
    · rw [List.nil_append]
      exact takeWhile_isLoad_loopTrace cfg
    · rw [List.singleton_append, List.takeWhile_cons]
      simp [isLoad, takeWhile_isLoad_loopTrace cfg]

/-- Claim C6 (confirmed): an evaluation-only pass (validation, with
`optimizer.zero_grad()` each batch, or test, without) leaves the model
parameters exactly as they were: only the forward pass runs, no
backpropagation and no optimizer step. -/
theorem eval_pass_preserves_params (R : Runtime) (zg : Bool) (p g : List ℚ)
    (bs : List BatchData) :
    (runPhase R false zg p g bs).params = p :=
  foldl_batchStep_params_eval R zg bs ⟨p, g, 0, 0⟩

/-- Claim C5 (confirmed): a phase pass starts from zeroed accumulators and
ends with metrics equal to the ordered per-batch sums of
`loss.item() * batch_size` and of the per-batch correct counts, each
divided by the total example count of the source. -/
theorem phase_runner_accumulation (R : Runtime) (t zg : Bool) (p g : List ℚ)
    (bs : List BatchData) (h : datasetSize bs ≠ 0) :
    epochMetrics R t zg p g bs =
      .ok (specRunningLoss R t zg ⟨p, g, 0, 0⟩ bs / (datasetSize bs : ℚ),
           (specRunningCorrects R t zg ⟨p, g, 0, 0⟩ bs : ℚ) / (datasetSize bs : ℚ)) := by
  simp only [epochMetrics, runPhase]
  rw [if_neg h, foldl_batchStep_runningLoss, foldl_batchStep_runningCorrects]
  norm_num

/-- Witness for `phase_runner_accumulation` on a one-batch source. -/
theorem phase_runner_accumulation_witness :
    datasetSize bs1 ≠ 0 ∧
    epochMetrics R0 false true [] [] bs1 =
      .ok (specRunningLoss R0 false true ⟨[], [], 0, 0⟩ bs1 / (datasetSize bs1 : ℚ),
           (specRunningCorrects R0 false true ⟨[], [], 0, 0⟩ bs1 : ℚ) / (datasetSize bs1 : ℚ)) :=
  ⟨by decide, phase_runner_accumulation R0 false true [] [] bs1 (by decide)⟩

/-- Claim C7 (confirmed): over a non-empty source, with a non-negative
per-batch loss and labels matching the inputs (so each batch contributes
at most its size to the correct count), the emitted average loss is ≥ 0
and the emitted accuracy lies in [0, 1]. -/
theorem phase_metrics_bounds (R : Runtime) (t zg : Bool) (p g : List ℚ)
    (bs : List BatchData)
    (h0 : 0 < datasetSize bs)
    (hL : ∀ o l, 0 ≤ R.criterionLoss o l)
    (hb : ∀ b ∈ bs, b.labels.length = b.inputs.length) :
    ∀ l a : ℚ, epochMetrics R t zg p g bs = .ok (l, a) → 0 ≤ l ∧ 0 ≤ a ∧ a ≤ 1 := by
  intro l a hm
  simp only [epochMetrics, runPhase] at hm
  rw [if_neg (Nat.pos_iff_ne_zero.1 h0)] at hm
  simp only [Except.ok.injEq, Prod.mk.injEq] at hm
  obtain ⟨hl', ha'⟩ := hm
  subst hl'
  subst ha'
  refine ⟨?_, ?_, ?_⟩
  · apply div_nonneg _ (Nat.cast_nonneg _)
    rw [foldl_batchStep_runningLoss]
    simpa using specRunningLoss_nonneg R t zg hL bs _
  · exact div_nonneg (Nat.cast_nonneg _) (Nat.cast_nonneg _)
  · rw [div_le_one (by exact_mod_cast h0)]
    rw [foldl_batchStep_runningCorrects]
    have hle := specRunningCorrects_le R t zg bs hb ⟨p, g, 0, 0⟩
    have hle' : (⟨p, g, 0, 0⟩ : LoopState).runningCorrects
        + specRunningCorrects R t zg ⟨p, g, 0, 0⟩ bs ≤ datasetSize bs := by
      simpa using hle
    exact_mod_cast hle'

/-- Witness for `phase_metrics_bounds` on the one-batch source `bs1`,
whose pass emits loss 1 and accuracy 1. -/
theorem phase_metrics_bounds_witness :
    0 < datasetSize bs1 ∧ (0 ≤ (1 : ℚ) ∧ 0 ≤ (1 : ℚ) ∧ (1 : ℚ) ≤ 1) :=
  ⟨by decide,
   phase_metrics_bounds R0 false true [] [] bs1 (by decide)
     (fun o l => by norm_num [R0]) (by decide) 1 1
     (by norm_num [epochMetrics, runPhase, batchStep, datasetSize, batchLossVal,
          batchCorrects, predsOf, R0, bs1, argmaxIdx, argmaxFrom, List.foldl,
          List.countP, List.countP.go])⟩

/-- Claim C9 (amended): a phase pass over a source of total example count
zero fails with Python's uncaught `ZeroDivisionError` when the average
loss is computed — it produces neither zero metrics nor a dedicated
`EmptyDatasetError`. -/
theorem empty_source_division_error (R : Runtime) (t zg : Bool) (p g : List ℚ)
    (bs : List BatchData) (h : datasetSize bs = 0) :
    epochMetrics R t zg p g bs = .error PhaseError.divisionByZero := by
  simp [epochMetrics, h]

/-- Witness for `empty_source_division_error` at the empty source. -/
theorem empty_source_division_error_witness :
    datasetSize ([] : List BatchData) = 0 ∧
    epochMetrics R0 false false [] [] ([] : List BatchData)
      = .error PhaseError.divisionByZero :=
  ⟨rfl, empty_source_division_error R0 false false [] [] [] rfl⟩

/-- Counterexample to claim C9 as stated: on the empty source the pass
neither returns average loss 0 and accuracy 0 nor fails with
`EmptyDatasetError` — lines 223/265 divide by zero. -/
theorem empty_source_counterexample :
    ¬ (epochMetrics R0 false false [] [] ([] : List BatchData)
          = .ok ((0 : ℚ), (0 : ℚ)) ∨
       epochMetrics R0 false false [] [] ([] : List BatchData)
          = .error PhaseError.emptyDataset) := by
  decide

/-- Claim C10 (confirmed): on every non-empty output row the index of the
maximum of the softmaxed row equals the index of the maximum of the raw
row — softmax is strictly monotone within a row — so predictions, correct
counts and accuracy are unchanged if the softmax step is omitted. -/
theorem softmax_argmax_eq (l : List ℝ) (h : l ≠ []) :
    argmaxIdx (softmaxRow l) = argmaxIdx l := by
  have hS : 0 < (l.map Real.exp).sum := by
    apply List.sum_pos
    · intro y hy
      obtain ⟨v, hv, rfl⟩ := List.mem_map.1 hy
      exact Real.exp_pos v
    · simpa using h
  have hg : StrictMono fun v : ℝ => Real.exp v / (l.map Real.exp).sum := by
    intro a b hab
    exact div_lt_div_of_pos_right (Real.exp_lt_exp.2 hab) hS
  exact argmaxIdx_map hg l

/-- Witness for `softmax_argmax_eq` at the two-entry row `[0, 1]`. -/
theorem softmax_argmax_eq_witness :
    (([0, 1] : List ℝ) ≠ []) ∧
    argmaxIdx (softmaxRow [0, 1]) = argmaxIdx ([0, 1] : List ℝ) :=
  ⟨by simp, softmax_argmax_eq [0, 1] (by simp)⟩

end TrainXFormers
